import Mathlib

/-!
Verification of the oauth-gatekeeper authenticating reverse proxy.

Shallow embedding of the parts of the program the claims touch:

* `pkg/authorization/authorization.go` — `AuthzDecision`, its `String`
  rendering and the `KeycloakAuthorizationProvider`.
* the refresh-token store glue (`StoreRefreshToken` / `GetRefreshToken` /
  `DeleteRefreshToken`); the backing `Store` interface and the
  `utils.GetHashKey` digest are not part of the sources, so the store is
  modelled by its get-view and the digest is a parameter.
* the resource model (`Resource`, `Valid`), the admission gates over roles
  and groups, and the middleware chain; those parts of the code are only
  visible through their test suites, so they are modelled from the design
  document and checked against the test expectations.
* the cookie encryption codec, modelled from the design document as an
  idealized authenticated cipher.

Go machine integers do not overflow in any of the embedded code paths, so
they are modelled by `Int`/`Nat` directly.
-/

namespace Gatekeeper

/-! ## pkg/authorization/authorization.go -/

/-- Go `type AuthzDecision int`.  The constants below follow the `iota`
block: `UndefinedAuthz = 0`, `AllowedAuthz = 1`, `DeniedAuthz = 2`. -/
abbrev AuthzDecision := Int

def UndefinedAuthz : AuthzDecision := 0

def AllowedAuthz : AuthzDecision := 1

def DeniedAuthz : AuthzDecision := 2

/-- Embedding of `func (decision AuthzDecision) String() string`: a switch
on the three named constants, with `strconv.Itoa(int(DeniedAuthz))` as the
fall-through for every other value. -/
def AuthzDecision.String (decision : AuthzDecision) : String :=
  if decision = AllowedAuthz then toString AllowedAuthz
  else if decision = DeniedAuthz then toString DeniedAuthz
  else if decision = UndefinedAuthz then ""
  else toString DeniedAuthz

/-- Embedding of `KeycloakAuthorizationProvider` (no fields). -/
structure KeycloakAuthorizationProvider

/-- Embedding of `func (p *KeycloakAuthorizationProvider) Authorize() (bool, error)`:
the body is literally `return true, nil`. -/
def KeycloakAuthorizationProvider.Authorize
    (_p : KeycloakAuthorizationProvider) : Bool × Option String :=
  (true, none)

/-! ## Refresh-token store (src/unnamed/part_003) -/

/-- Error values from `pkg/apperrors` used by the embedded code. -/
inductive AppError
  | noSessionStateFound
  | decryption
  | storeFailure (msg : String)
deriving DecidableEq, Repr

/-- Modelled from the spec: the `Store` contract `Set/Get/Delete` (§4.2).
The backend implementations are not under the sources; a store is modelled
by its get-view, the function answering `Get` per key.  `Set` updates the
view at one key; `Delete` makes the key read as the empty string, which is
how the network-cache backend reports an absent key without an error. -/
abbrev Store := String → Except AppError String

def Store.set (s : Store) (key value : String) : Store :=
  fun k => if k = key then .ok value else s k

def Store.delete (s : Store) (key : String) : Store :=
  fun k => if k = key then .ok "" else s k

/-- Embedding of `OauthProxy.StoreRefreshToken`: `Store.Set(GetHashKey(token),
value, expiration)`.  The digest `utils.GetHashKey` is not under the sources
and is passed as the parameter `hashKey`; the TTL only drives backend
eviction, which the get-view does not model. -/
def StoreRefreshToken (hashKey : String → String) (s : Store)
    (token value : String) (_expiration : Nat) : Store :=
  Store.set s (hashKey token) value

/-- Embedding of `OauthProxy.GetRefreshToken`: query the store at
`GetHashKey(token)`, pass backend errors through, and map an empty value
without an error to `ErrNoSessionStateFound`. -/
def GetRefreshToken (hashKey : String → String) (s : Store)
    (token : String) : Except AppError String :=
  match s (hashKey token) with
  | .error e => .error e
  | .ok val => if val = "" then .error .noSessionStateFound else .ok val

/-- Embedding of `OauthProxy.DeleteRefreshToken`: `Store.Delete(GetHashKey(token))`. -/
def DeleteRefreshToken (hashKey : String → String) (s : Store)
    (token : String) : Store :=
  Store.delete s (hashKey token)

/-! ## Claims C9, C10, C7 -/

/-- C9: `KeycloakAuthorizationProvider.Authorize()` unconditionally returns
`(true, nil)`: it reports every request as authorized and never errors. -/
theorem keycloak_authorize_always_true (p : KeycloakAuthorizationProvider) :
    p.Authorize.1 = true ∧ p.Authorize.2 = none :=
  ⟨rfl, rfl⟩

/-- C10: `AuthzDecision.String` maps `AllowedAuthz` to `"1"`, `DeniedAuthz`
to `"2"`, `UndefinedAuthz` to `""`, and every out-of-range decision value to
`"2"`, the decimal rendering of `DeniedAuthz`. -/
theorem authzDecision_string_cases (d : AuthzDecision) :
    AuthzDecision.String AllowedAuthz = "1" ∧
    AuthzDecision.String DeniedAuthz = "2" ∧
    AuthzDecision.String UndefinedAuthz = "" ∧
    (d ≠ UndefinedAuthz → d ≠ AllowedAuthz → d ≠ DeniedAuthz →
      AuthzDecision.String d = "2") := by
  refine ⟨by decide, by decide, by decide, ?_⟩
  intro h0 h1 h2
  simp only [AuthzDecision.String, if_neg h1, if_neg h2, if_neg h0]
  decide

/-- Witness for C10 at the out-of-range decision value `5`. -/
theorem authzDecision_string_cases_witness :
    AuthzDecision.String 5 = "2" :=
  (authzDecision_string_cases 5).2.2.2 (by decide) (by decide) (by decide)

/-- C7: `GetRefreshToken` queries the store at `GetHashKey(token)` — the
key `StoreRefreshToken` writes and `DeleteRefreshToken` deletes — passes
backend errors through, returns a stored non-empty value, and maps an empty
value without an error to `ErrNoSessionStateFound`. -/
theorem getRefreshToken_contract (hashKey : String → String) (s : Store)
    (token value : String) (ttl : Nat) (hv : value ≠ "") :
    GetRefreshToken hashKey (StoreRefreshToken hashKey s token value ttl) token
        = .ok value ∧
    GetRefreshToken hashKey (DeleteRefreshToken hashKey s token) token
        = .error .noSessionStateFound ∧
    (s (hashKey token) = .ok "" →
      GetRefreshToken hashKey s token = .error .noSessionStateFound) ∧
    (∀ e, s (hashKey token) = .error e →
      GetRefreshToken hashKey s token = .error e) ∧
    (∀ v, v ≠ "" → s (hashKey token) = .ok v →
      GetRefreshToken hashKey s token = .ok v) := by
  refine ⟨?_, ?_, ?_, ?_, ?_⟩
  · simp [GetRefreshToken, StoreRefreshToken, Store.set, hv]
  · simp [GetRefreshToken, DeleteRefreshToken, Store.delete]
  · intro h
    simp [GetRefreshToken, h]
  · intro e h
    simp [GetRefreshToken, h]
  · intro v hvne h
    simp [GetRefreshToken, h, hvne]

/-- Witness for C7: storing then reading a concrete refresh token. -/
theorem getRefreshToken_contract_witness :
    GetRefreshToken id
        (StoreRefreshToken id (fun _ => .ok "") "access-token" "refresh-token" 7)
        "access-token" = .ok "refresh-token" :=
  (getRefreshToken_contract id (fun _ => .ok "") "access-token" "refresh-token" 7
    (by decide)).1

/-! ## Resources (pkg/authorization) -/

/-- Go `utils.AllHTTPMethods`: the standard HTTP methods registered by
default. -/
def AllHTTPMethods : List String :=
  ["DELETE", "GET", "HEAD", "OPTIONS", "PATCH", "POST", "PUT", "TRACE"]

/-- The `Resource` protection rule, with the attributes the claims touch
(claim predicates, custom headers and the UMA flag are not needed here). -/
structure Resource where
  URL : String
  Methods : List String := []
  Roles : List String := []
  Groups : List String := []
  RequireAnyRole : Bool := false
  WhiteListed : Bool := false
deriving DecidableEq, Repr

/-- Modelled from the spec: `Resource.Valid` is not under the sources, only
its test `TestIsValid` is.  Reconstructed from the validity invariant of §3
together with the expectations of `TestIsValid`
(src/pkg/authorization/resource_test.go): an empty URL errors; a URL ending
in `/` other than `/` itself errors for a non-white-listed resource (the
test rejects `/admin/` and accepts `/`); a nil method list defaults to all
registered methods and is accepted; otherwise every listed method must be a
member of the registered method set, here the parameter `registered`
(`chi.RegisterMethod` can extend it at runtime). -/
def Resource.Valid (registered : List String) (r : Resource) :
    Except String Unit :=
  if r.URL = "" then .error "resource does not have url"
  else if r.URL.data.getLast? = some '/' ∧ r.URL ≠ "/" ∧ r.WhiteListed = false
    then .error "you need a wildcard on the url resource"
  else if r.Methods.all (fun m => registered.contains m) then .ok ()
  else .error "invalid method"

/-- C6 counterexample: the resource `{URL: "/admin/", Methods: all}` has a
non-empty URL and only registered methods, yet `Valid()` errors (the
expectation of `TestIsValid` case 3). -/
theorem resource_valid_counterexample :
    Resource.Valid AllHTTPMethods
        { URL := "/admin/", Methods := AllHTTPMethods }
        = .error "you need a wildcard on the url resource" ∧
    "/admin/" ≠ "" ∧
    (AllHTTPMethods.all fun m => AllHTTPMethods.contains m) = true :=
  ⟨rfl, by decide, by decide⟩

/-- C6 as amended: `Valid()` succeeds iff the URL is non-empty, the URL does
not end in `/` (except the URL `/` itself, or a white-listed resource), and
every listed method is registered. -/
theorem resource_valid_iff (registered : List String) (r : Resource) :
    Resource.Valid registered r = .ok () ↔
      (r.URL ≠ "" ∧
       ¬(r.URL.data.getLast? = some '/' ∧ r.URL ≠ "/" ∧ r.WhiteListed = false) ∧
       ∀ m ∈ r.Methods, m ∈ registered) := by
  unfold Resource.Valid
  split_ifs with h1 h2 h3
  · simp [h1]
  · constructor
    · intro h
      cases h
    · rintro ⟨_, hno, _⟩
      exact (hno h2).elim
  · simp only [List.all_eq_true, List.contains, List.elem_iff] at h3
    constructor
    · intro _
      exact ⟨h1, h2, h3⟩
    · intro _
      rfl
  · simp only [List.all_eq_true, List.contains, List.elem_iff] at h3
    constructor
    · intro h
      cases h
    · rintro ⟨_, _, hall⟩
      exact (h3 hall).elim

/-! ## Middleware chain (modelled from the spec) -/

/-- A verified-or-not bearer token with the claim sets the gates read. -/
structure Token where
  signatureValid : Bool := true
  roles : List String := []
  groups : List String := []
deriving DecidableEq, Repr

/-- An inbound request: raw path, method, and the optional token presented
via cookie or Authorization header. -/
structure Request where
  path : String
  method : String := "GET"
  token : Option Token := none
deriving DecidableEq, Repr

/-- Modelled from the spec: URL pattern matching (§4.3).  A trailing `*` is
a wildcard suffix; without `*` the pattern must equal the path. -/
def patternMatches (pattern path : String) : Bool :=
  if pattern.data.getLast? = some '*' then
    List.isPrefixOf pattern.data.dropLast path.data
  else pattern == path

/-- Modelled from the spec: resource selection (§4.3).  Among declared
resources whose pattern matches the path and whose method set contains the
request method, the most specific (longest) pattern wins; ties are broken
by declaration order. -/
def matchResource (resources : List Resource) (req : Request) :
    Option Resource :=
  (resources.filter fun r =>
      patternMatches r.URL req.path && r.Methods.contains req.method).foldl
    (fun best r =>
      match best with
      | none => some r
      | some b => if r.URL.length > b.URL.length then some r else some b)
    none

/-- Modelled from the spec: the role gate (§4.6 step 2).  With
require-any-role one shared role suffices; otherwise every resource role
must be held by the token. -/
def roleGate (r : Resource) (t : Token) : Bool :=
  if r.RequireAnyRole then r.Roles.any (fun x => t.roles.contains x)
  else r.Roles.all (fun x => t.roles.contains x)

/-- Modelled from the spec: the group gate (§4.6 step 3), with the
"at least one match" semantics that `TestGroupPermissionsMiddleware`
exhibits: an empty resource group list skips the gate; otherwise some
resource group must be among the token's groups. -/
def groupGate (r : Resource) (t : Token) : Bool :=
  if r.Groups.isEmpty then true
  else r.Groups.any (fun g => t.groups.contains g)

/-- The observable outcome of the chain: the upstream response was returned,
or the chain halted with a status (and the upstream was never called). -/
inductive Outcome
  | upstream
  | denied (status : Nat)
deriving DecidableEq, Repr

/-- Modelled from the spec: the middleware chain in no-redirect mode (§2,
§4.7, §7).  Entry point matches the resource; a white-listed resource
short-circuits every auth check (§4.3); a missing token or a token whose
signature fails verification yields 401; the role and group gates yield 403
on deny; otherwise the request is forwarded to the upstream.  With no
matching rule (and no default-deny configured) the request is forwarded. -/
def middlewareChain (resources : List Resource) (req : Request) : Outcome :=
  match matchResource resources req with
  | none => .upstream
  | some r =>
    if r.WhiteListed then .upstream
    else
      match req.token with
      | none => .denied 401
      | some t =>
        if !t.signatureValid then .denied 401
        else if !roleGate r t then .denied 403
        else if !groupGate r t then .denied 403
        else .upstream

/-- Resource selection reads only the path and the method, never the
credentials carried by the request. -/
theorem matchResource_token_irrelevant (resources : List Resource)
    (req : Request) (t : Option Token) :
    matchResource resources { req with token := t }
      = matchResource resources req := by
  cases req
  rfl

/-- C1 counterexample: on the white-listed configuration of
`TestWhiteListedRequests`, a request to `/whitelist` carrying a token whose
signature fails verification is still forwarded to the upstream with the
upstream's response — not answered 401 — because a white-listed resource
short-circuits every auth check. -/
theorem signature_deny_counterexample :
    middlewareChain
        [{ URL := "/*", Methods := AllHTTPMethods, Roles := ["test"] },
         { URL := "/whitelist*", Methods := AllHTTPMethods, WhiteListed := true }]
        { path := "/whitelist", method := "GET",
          token := some { signatureValid := false, roles := ["test"] } }
      = .upstream := by
  decide

/-- C1 as amended: for every request that matches a non-white-listed
resource and carries a token whose signature fails verification (an
unsigned token included), the chain answers 401 and the upstream is not
called. -/
theorem signature_fail_denied (resources : List Resource) (req : Request)
    (r : Resource) (t : Token)
    (hm : matchResource resources req = some r)
    (hw : r.WhiteListed = false)
    (ht : req.token = some t)
    (hs : t.signatureValid = false) :
    middlewareChain resources req = .denied 401 := by
  simp [middlewareChain, hm, hw, ht, hs]

/-- Witness for C1 (amended) on a catch-all resource and an unsigned token. -/
theorem signature_fail_denied_witness :
    middlewareChain [{ URL := "/*", Methods := AllHTTPMethods, Roles := ["test"] }]
        { path := "/", method := "GET",
          token := some { signatureValid := false, roles := ["test"] } }
      = .denied 401 :=
  signature_fail_denied
    [{ URL := "/*", Methods := AllHTTPMethods, Roles := ["test"] }]
    { path := "/", method := "GET",
      token := some { signatureValid := false, roles := ["test"] } }
    { URL := "/*", Methods := AllHTTPMethods, Roles := ["test"] }
    { signatureValid := false, roles := ["test"] }
    (by decide) rfl rfl rfl

/-- C2: a request matching a white-listed resource is forwarded and the
upstream response returned, and the outcome is the same whatever
credentials the request carries — no cookie or Authorization-header
inspection can influence it. -/
theorem whitelisted_bypasses_auth (resources : List Resource) (req : Request)
    (r : Resource)
    (hm : matchResource resources req = some r)
    (hw : r.WhiteListed = true) :
    middlewareChain resources req = .upstream ∧
    ∀ t : Option Token,
      middlewareChain resources { req with token := t } = .upstream := by
  constructor
  · simp [middlewareChain, hm, hw]
  · intro t
    unfold middlewareChain
    rw [matchResource_token_irrelevant, hm]
    simp [hw]

/-- Witness for C2: `/whitelist` is forwarded even with an unsigned token. -/
theorem whitelisted_bypasses_auth_witness :
    middlewareChain
        [{ URL := "/*", Methods := AllHTTPMethods, Roles := ["test"] },
         { URL := "/whitelist*", Methods := AllHTTPMethods, WhiteListed := true }]
        { path := "/whitelist", method := "GET",
          token := some { signatureValid := false } }
      = .upstream := by
  have h := whitelisted_bypasses_auth
      [{ URL := "/*", Methods := AllHTTPMethods, Roles := ["test"] },
       { URL := "/whitelist*", Methods := AllHTTPMethods, WhiteListed := true }]
      { path := "/whitelist", method := "GET", token := none }
      { URL := "/whitelist*", Methods := AllHTTPMethods, WhiteListed := true }
      (by decide) rfl
  exact h.2 (some { signatureValid := false })

/-- C3 counterexample: on the `/with_many_groups*` resource of
`TestGroupPermissionsMiddleware` (groups `admin,user,tester`), a token
holding only the group `user` passes the group gate although the resource
group list is not a subset of the token's groups. -/
theorem group_subset_counterexample :
    groupGate
        { URL := "/with_many_groups*", Methods := AllHTTPMethods,
          Groups := ["admin", "user", "tester"] }
        { signatureValid := true, groups := ["user"] } = true ∧
    ¬(∀ g ∈ (["admin", "user", "tester"] : List String),
        g ∈ (["user"] : List String)) := by
  decide

/-- C3 as amended: for non-empty `R.groups` the group gate passes exactly
when some resource group is among the token's groups (a non-empty
intersection, the "at least one match" gloss); empty `R.groups` skips the
gate. -/
theorem groupGate_any_match (r : Resource) (t : Token) :
    groupGate r t = true ↔
      (r.Groups = [] ∨ ∃ g, g ∈ r.Groups ∧ g ∈ t.groups) := by
  by_cases h : r.Groups = []
  · simp [groupGate, h]
  · have hne : r.Groups.isEmpty = false := by
      simpa [List.isEmpty_iff] using h
    simp [groupGate, hne, h, List.any_eq_true, List.contains, List.elem_iff]

/-- C4: the role gate with require-any-role passes exactly when the token's
roles and the resource's roles intersect; without it, exactly when every
resource role is present among the token's roles. -/
theorem roleGate_spec (r : Resource) (t : Token) :
    roleGate r t = true ↔
      (if r.RequireAnyRole = true then ∃ x, x ∈ t.roles ∧ x ∈ r.Roles
       else ∀ x ∈ r.Roles, x ∈ t.roles) := by
  unfold roleGate
  cases h : r.RequireAnyRole with
  | false => simp [h, List.all_eq_true, List.contains, List.elem_iff]
  | true =>
    simp only [h, if_true, if_pos]
    simp [List.any_eq_true, List.contains, List.elem_iff, and_comm]

/-! ## Cookie encryption (modelled from the spec) -/

/-- A byte, with the wrap-around arithmetic the checksum tag uses. -/
abbrev Byte := ZMod 256

/-- Modelled from the spec: the authentication tag of the cipher (§4.1).
The real code uses AES-GCM, whose tag is a keyed function of nonce and
payload that tampering invalidates; the ideal model uses a keyed byte
checksum, which detects every single-byte alteration exactly. -/
def sealTag (key nonce body : List Byte) : Byte :=
  key.sum + nonce.sum + body.sum

/-- Modelled from the spec: `encryptDataBlock` is not under the sources
(only the test helpers `checkAccessTokenEncryption` /
`checkRefreshTokenEncryption` are).  Idealized authenticated encryption
with a 32-byte key and a 12-byte random nonce (supplied by the caller
here): ciphertext is `nonce ++ payload ++ [tag]`; a key of the wrong
length is rejected.  Confidentiality of the payload and the base64url
cookie transport encoding are not modelled; the claim is about the
byte-level roundtrip and authenticity. -/
def encryptDataBlock (key nonce plaintext : List Byte) :
    Option (List Byte) :=
  if key.length = 32 ∧ nonce.length = 12 then
    some (nonce ++ plaintext ++ [sealTag key nonce plaintext])
  else none

/-- Modelled from the spec: `decryptDataBlock`.  Splits the ciphertext into
nonce, payload and tag, recomputes the tag and fails (`ErrDecryption`)
unless it matches; too-short input or a key of the wrong length fails. -/
def decryptDataBlock (key ciphertext : List Byte) : Option (List Byte) :=
  if key.length = 32 ∧ 13 ≤ ciphertext.length then
    if ciphertext.getLast?
        = some (sealTag key (ciphertext.take 12)
            ((ciphertext.drop 12).dropLast)) then
      some ((ciphertext.drop 12).dropLast)
    else none
  else none

/-- Changing one list entry to a different byte changes the checksum. -/
theorem sum_set_ne (l : List Byte) (i : Nat) (hi : i < l.length) (b : Byte)
    (hb : b ≠ l[i]) : (l.set i b).sum ≠ l.sum := by
  intro he
  apply hb
  have hset := List.sum_set l i b
  rw [if_pos hi] at hset
  have hdec : l.sum = (l.take i).sum + l[i] + (l.drop (i + 1)).sum := by
    rw [← List.sum_take_add_sum_drop l i, List.drop_eq_getElem_cons hi,
      List.sum_cons, ← add_assoc]
  rw [hset, hdec] at he
  rw [add_assoc, add_assoc] at he
  exact add_right_cancel (add_left_cancel he)

/-- Tags over different nonces of equal payload differ when the nonce
checksums differ. -/
theorem sealTag_ne_nonce (key n m p : List Byte) (h : m.sum ≠ n.sum) :
    sealTag key m p ≠ sealTag key n p := by
  intro he
  exact h (add_left_cancel (add_right_cancel he))

/-- Tags over different payloads of equal nonce differ when the payload
checksums differ. -/
theorem sealTag_ne_body (key n p q : List Byte) (h : q.sum ≠ p.sum) :
    sealTag key n q ≠ sealTag key n p := by
  intro he
  exact h (add_left_cancel he)

/-- Evaluating decryption on an explicitly split ciphertext. -/
theorem decrypt_concat (key n p : List Byte) (tag : Byte)
    (hk : key.length = 32) (hn : n.length = 12) :
    decryptDataBlock key ((n ++ p) ++ [tag])
      = if tag = sealTag key n p then some p else none := by
  unfold decryptDataBlock
  have hlen : 13 ≤ ((n ++ p) ++ [tag]).length := by
    simp [hn]
    omega
  rw [if_pos ⟨hk, hlen⟩]
  rw [List.append_assoc, List.take_left' hn, List.drop_left' hn,
    List.dropLast_concat, ← List.append_assoc, List.getLast?_concat]
  simp only [Option.some.injEq]

/-- C5: decrypting the encryption of any cookie payload under a valid
32-byte key returns the payload exactly, and altering any single byte of a
valid ciphertext makes decryption fail. -/
theorem encrypt_decrypt_roundtrip_tamper (key nonce plaintext c : List Byte)
    (hc : encryptDataBlock key nonce plaintext = some c) :
    decryptDataBlock key c = some plaintext ∧
    ∀ (i : Nat) (hi : i < c.length) (b : Byte),
      b ≠ c.get ⟨i, hi⟩ → decryptDataBlock key (c.set i b) = none := by
  unfold encryptDataBlock at hc
  split_ifs at hc with hkn
  obtain ⟨hk, hn⟩ := hkn
  injection hc with hceq
  subst hceq
  constructor
  · rw [decrypt_concat key nonce plaintext _ hk hn, if_pos rfl]
  · intro i hi b hb
    rw [List.get_eq_getElem] at hb
    have hlenNP : (nonce ++ plaintext).length = 12 + plaintext.length := by
      simp [hn]
    by_cases h1 : i < 12
    · -- the altered byte is in the nonce
      have hiNP : i < (nonce ++ plaintext).length := by omega
      have hbn : b ≠ nonce[i] := by
        rw [List.getElem_append_left hiNP,
          List.getElem_append_left (hn ▸ h1)] at hb
        exact hb
      rw [List.set_append_left _ _ hiNP,
        List.set_append_left _ _ (hn ▸ h1)]
      rw [decrypt_concat key (nonce.set i b) plaintext _ hk
        (by rw [List.length_set]; exact hn)]
      rw [if_neg]
      exact fun hco =>
        sealTag_ne_nonce key nonce (nonce.set i b) plaintext
          (sum_set_ne nonce i (hn ▸ h1) b hbn) hco.symm
    · by_cases h2 : i < 12 + plaintext.length
      · -- the altered byte is in the payload
        have hiNP : i < (nonce ++ plaintext).length := by omega
        have hile : nonce.length ≤ i := by omega
        have hip : i - 12 < plaintext.length := by omega
        have hbp : b ≠ plaintext[i - 12] := by
          rw [List.getElem_append_left hiNP,
            List.getElem_append_right hile] at hb
          simp only [hn] at hb
          exact hb
        rw [List.set_append_left _ _ hiNP,
          List.set_append_right _ _ hile, hn]
        rw [decrypt_concat key nonce (plaintext.set (i - 12) b) _ hk hn]
        rw [if_neg]
        exact fun hco =>
          sealTag_ne_body key nonce plaintext (plaintext.set (i - 12) b)
            (sum_set_ne plaintext (i - 12) hip b hbp) hco.symm
      · -- the altered byte is the tag
        have hlen : ((nonce ++ plaintext) ++ [sealTag key nonce plaintext]).length
            = 12 + plaintext.length + 1 := by
          simp [hn]
          omega
        have hile : (nonce ++ plaintext).length ≤ i := by omega
        have hieq : i - (nonce ++ plaintext).length = 0 := by omega
        have hbt : b ≠ sealTag key nonce plaintext := by
          rw [List.getElem_append_right hile] at hb
          simp only [hieq] at hb
          simpa using hb
        rw [List.set_append_right _ _ hile, hieq]
        rw [show ([sealTag key nonce plaintext].set 0 b) = [b] from rfl]
        rw [decrypt_concat key nonce plaintext b hk hn]
        exact if_neg hbt

/-- Witness for C5: a concrete encrypt/decrypt roundtrip under an all-zero
32-byte key and nonce, and a tamper at the first payload byte. -/
theorem encrypt_decrypt_roundtrip_tamper_witness :
    decryptDataBlock (List.replicate 32 0)
        (List.replicate 12 0 ++ [1, 2, 3] ++ [6]) = some [1, 2, 3] ∧
    decryptDataBlock (List.replicate 32 0)
        ((List.replicate 12 0 ++ [1, 2, 3] ++ [6]).set 12 9) = none := by
  have h := encrypt_decrypt_roundtrip_tamper (List.replicate 32 0)
      (List.replicate 12 0) [1, 2, 3]
      (List.replicate 12 0 ++ [1, 2, 3] ++ [6]) (by decide)
  exact ⟨h.1, h.2 12 (by decide) 9 (by decide)⟩

end Gatekeeper
